import Mathlib

set_option maxRecDepth 8192

/-!
Verification of the Simple File Server response builder
(`src/simple-http/src/http/response.rs`, `HttpResponse::new`).

The builder is shallowly embedded as a pure function over an explicit
file-system snapshot (`World`).  Paths are modelled the way Rust's
`std::path` treats them: an absolute flag plus a list of textual
components (the `RootDir` component of an absolute Rust path is counted
separately by `componentCount`).  Canonicalization resolves `.` and `..`
against the snapshot and fails exactly when the walked path does not
exist, matching `std::fs::canonicalize` on a symlink-free tree.  File
bytes are lists of naturals; Rust's `String::from_utf8_lossy` is
re-implemented byte-for-byte as `utf8DecodeAux`.
-/

namespace SimpleHttp

/-- Raw file contents: a byte sequence. -/
abbrev Bytes := List Nat

/-- Node of the file-system snapshot.  `other` covers paths that exist but
are neither regular files nor directories (FIFOs, device nodes, ...),
which the Rust code probes with `exists()` / `is_file()` / `is_dir()`. -/
inductive FSNode where
  | file (content : Bytes)
  | dir (entries : List String)
  | other
  | missing
deriving DecidableEq

/-- File-system snapshot plus the `infer` MIME sniffer: `node` maps a
canonical absolute path (component list, `[]` is `/`) to its node, and
`sniff` maps a file's bytes to the sniffed MIME type, if any. -/
structure World where
  node : List String → FSNode
  sniff : Bytes → Option String

/-- Rust path: absolute flag plus components (which may still contain
`.` and `..`; canonicalization resolves them). -/
structure RPath where
  absolute : Bool
  comps : List String
deriving DecidableEq

/-- Rust `Path::join`: an absolute right operand replaces the left one. -/
def RPath.join (a b : RPath) : RPath :=
  if b.absolute then b else ⟨a.absolute, a.comps ++ b.comps⟩

/-- Split a character list at every occurrence of `sep`. -/
def splitChar (sep : Char) : List Char → List Char → List (List Char)
  | acc, [] => [acc.reverse]
  | acc, c :: cs =>
    if c = sep then acc.reverse :: splitChar sep [] cs
    else splitChar sep (c :: acc) cs

/-- Split a string at every slash. -/
def splitSlash (s : String) : List String :=
  (splitChar '/' [] s.data).map (fun cs => String.mk cs)

/-- Whether the textual path is absolute. -/
def startsWithSlash (s : String) : Bool :=
  match s.data with
  | [] => false
  | c :: _ => c = '/'

/-- Parse a textual path into a Rust path; empty components produced by
repeated or trailing slashes are dropped, as Rust's `Components` does. -/
def parsePath (s : String) : RPath :=
  ⟨startsWithSlash s, (splitSlash s).filter (fun c => c ≠ "")⟩

/-- Join relative components back into their display form. -/
def joinSlash : List String → String
  | [] => ""
  | [x] => x
  | x :: xs => x ++ "/" ++ joinSlash xs

/-- Canonicalization walk: `.` is skipped, `..` pops one component, and a
normal component requires the current node to be a directory; the final
node must exist.  This matches `std::fs::canonicalize` (POSIX `realpath`)
on a snapshot without symlinks. -/
def canonAux (w : World) : List String → List String → Option (List String)
  | acc, [] => if w.node acc = FSNode.missing then none else some acc
  | acc, c :: rest =>
    if c = "." then canonAux w acc rest
    else if c = ".." then canonAux w acc.dropLast rest
    else
      match w.node acc with
      | FSNode.dir _ => canonAux w (acc ++ [c]) rest
      | _ => none

/-- Model of `Path::canonicalize`; fails (I/O error in Rust) exactly when
the walk fails. -/
def canonicalize (w : World) (p : RPath) : Option (List String) :=
  if p.absolute then canonAux w [] p.comps else none

/-- Model of `stat` on a path: the node reached by resolving it, or
`missing` when resolution fails.  `exists()` / `is_file()` / `is_dir()`
are the obvious projections of this. -/
def statNode (w : World) (p : RPath) : FSNode :=
  match canonicalize w p with
  | some cp => w.node cp
  | none => FSNode.missing

/-- Component count of a canonical absolute path as Rust's
`components().count()` computes it: `RootDir` is itself a component. -/
def componentCount (l : List String) : Nat := l.length + 1

/-- Modelled from the spec: the request's HTTP version tag (the `request`
module of the repository is not under `src/`).  The spec only says a
version tag is carried and "threaded through unchanged"; two variants
with the usual display forms model this. -/
inductive Version where
  | V1_1
  | V2_0
deriving DecidableEq

/-- Display form of the version as it appears in the status line. -/
def Version.display : Version → String
  | Version.V1_1 => "HTTP/1.1"
  | Version.V2_0 => "HTTP/2"

/-- Response status, `ResponseStatus` in the source. -/
inductive ResponseStatus where
  | OK
  | NotFound
deriving DecidableEq

/-- Display form from `impl Display for ResponseStatus`. -/
def ResponseStatus.display : ResponseStatus → String
  | ResponseStatus.OK => "200 OK"
  | ResponseStatus.NotFound => "404 NOT FOUND"

/-- Accept-Ranges indicator, `AcceptRanges` in the source. -/
inductive AcceptRanges where
  | Bytes
  | None
deriving DecidableEq

/-- Display form from `impl Display for AcceptRanges`. -/
def AcceptRanges.display : AcceptRanges → String
  | AcceptRanges.Bytes => "accept-ranges: bytes"
  | AcceptRanges.None => "accept-ranges: none"

/-- Modelled from the spec: the resource of a parsed request (the
`request` module is not under `src/`); the builder only reads `path`. -/
structure Resource where
  path : String
deriving DecidableEq

/-- Modelled from the spec: the parsed request record; the builder reads
only `resource.path`, the version tag is carried alongside. -/
structure HttpRequest where
  resource : Resource
  version : Version
deriving DecidableEq

/-- The `HttpResponse` struct of the source. -/
structure HttpResponse where
  version : Version
  status : ResponseStatus
  content_length : Nat
  accept_ranges : AcceptRanges
  response_body : String
  current_path : String
deriving DecidableEq

/-- The two I/O failure sources of the builder: a failed `canonicalize`
call (propagated by `?`) and a failed `strip_prefix` during listing. -/
inductive IoError where
  | canonicalizeFailed
  | stripPrefixFailed
deriving DecidableEq

/-- Byte length of a string, Rust's `String::len`. -/
def strLen (s : String) : Nat := s.data.foldl (fun n c => n + c.utf8Size) 0

/-- Continuation byte test for UTF-8. -/
abbrev isCont (b : Nat) : Prop := 0x80 ≤ b ∧ b ≤ 0xBF

/-- Valid second byte for a three-byte UTF-8 sequence headed by `b`. -/
abbrev cont3ok (b b1 : Nat) : Prop :=
  (b = 0xE0 ∧ 0xA0 ≤ b1 ∧ b1 ≤ 0xBF) ∨ (0xE1 ≤ b ∧ b ≤ 0xEC ∧ isCont b1) ∨
  (b = 0xED ∧ 0x80 ≤ b1 ∧ b1 ≤ 0x9F) ∨ (0xEE ≤ b ∧ b ≤ 0xEF ∧ isCont b1)

/-- Valid second byte for a four-byte UTF-8 sequence headed by `b`. -/
abbrev cont4ok (b b1 : Nat) : Prop :=
  (b = 0xF0 ∧ 0x90 ≤ b1 ∧ b1 ≤ 0xBF) ∨ (0xF1 ≤ b ∧ b ≤ 0xF3 ∧ isCont b1) ∨
  (b = 0xF4 ∧ 0x80 ≤ b1 ∧ b1 ≤ 0x8F)

/-- The Unicode replacement character U+FFFD. -/
def repChar : Char := Char.ofNat 0xFFFD

/-- Byte-level re-implementation of Rust's `String::from_utf8_lossy`:
each maximal valid prefix of an invalid sequence is replaced by one
U+FFFD ("substitution of maximal subparts"). -/
def utf8DecodeAux : List Nat → List Char
  | [] => []
  | b :: rest =>
    if b < 0x80 then Char.ofNat b :: utf8DecodeAux rest
    else if 0xC2 ≤ b ∧ b ≤ 0xDF then
      match rest with
      | [] => [repChar]
      | b1 :: rest1 =>
        if isCont b1 then
          Char.ofNat ((b - 0xC0) * 64 + (b1 - 0x80)) :: utf8DecodeAux rest1
        else repChar :: utf8DecodeAux (b1 :: rest1)
    else if 0xE0 ≤ b ∧ b ≤ 0xEF then
      match rest with
      | [] => [repChar]
      | b1 :: rest1 =>
        if cont3ok b b1 then
          match rest1 with
          | [] => [repChar]
          | b2 :: rest2 =>
            if isCont b2 then
              Char.ofNat ((b - 0xE0) * 4096 + (b1 - 0x80) * 64 + (b2 - 0x80)) ::
                utf8DecodeAux rest2
            else repChar :: utf8DecodeAux (b2 :: rest2)
        else repChar :: utf8DecodeAux (b1 :: rest1)
    else if 0xF0 ≤ b ∧ b ≤ 0xF4 then
      match rest with
      | [] => [repChar]
      | b1 :: rest1 =>
        if cont4ok b b1 then
          match rest1 with
          | [] => [repChar]
          | b2 :: rest2 =>
            if isCont b2 then
              match rest2 with
              | [] => [repChar]
              | b3 :: rest3 =>
                if isCont b3 then
                  Char.ofNat
                      ((b - 0xF0) * 262144 + (b1 - 0x80) * 4096 +
                        (b2 - 0x80) * 64 + (b3 - 0x80)) ::
                    utf8DecodeAux rest3
                else repChar :: utf8DecodeAux (b3 :: rest3)
            else repChar :: utf8DecodeAux (b2 :: rest2)
        else repChar :: utf8DecodeAux (b1 :: rest1)
    else repChar :: utf8DecodeAux rest

/-- The 403 body literal of the source. -/
def forbiddenBody : String := "<html><body><h1>403 Forbidden</h1></body></html>"

/-- The 404 body literal of the source. -/
def notFoundBody : String := "<html><body><h1>404 Not Found</h1></body></html>"

/-- The header block produced by the two `format!` calls:
`"{} {}\n{}\nContent-Type: {}\nContent-Length: {}\r\n\r\n"`. -/
def headerString (v : Version) (st : ResponseStatus) (ar : AcceptRanges)
    (mime : String) (n : Nat) : String :=
  v.display ++ " " ++ st.display ++ "\n" ++ ar.display ++ "\nContent-Type: " ++
    mime ++ "\nContent-Length: " ++ Nat.repr n ++ "\r\n\r\n"

/-- One listing entry: `"<li><a href=\"/{}\">{}</a></li>"`. -/
def childLink (file_path file_name : String) : String :=
  "<li><a href=\"/" ++ file_path ++ "\">" ++ file_name ++ "</a></li>"

/-- The go-back entry: `"<li><a href=\"/{}\">Go back up a directory</a></li>"`. -/
def goBackLink (parent_path : String) : String :=
  "<li><a href=\"/" ++ parent_path ++ "\">Go back up a directory</a></li>"

/-- Rust `Path::strip_prefix` followed by `.display().to_string()`:
succeeds when the prefix components match, yielding the remainder. -/
def stripPrefixDisplay (p base : RPath) : Option String :=
  if base.absolute = p.absolute ∧ List.isPrefixOf base.comps p.comps then
    some (joinSlash (p.comps.drop base.comps.length))
  else none

/-- The `WalkDir` loop of the directory branch: one link per immediate
child, aborting with an I/O error when `strip_prefix` fails. -/
def childLinks (root dirPath : RPath) : List String → Except IoError (List String)
  | [] => Except.ok []
  | name :: rest =>
    match stripPrefixDisplay ⟨dirPath.absolute, dirPath.comps ++ [name]⟩ root with
    | none => Except.error IoError.stripPrefixFailed
    | some file_path =>
      match childLinks root dirPath rest with
      | Except.error e => Except.error e
      | Except.ok ls => Except.ok (childLink file_path name :: ls)

/-- Rust `Path::new(resource).parent().unwrap_or(Path::new("/")).display()`:
drop the last component; `/` when there is no parent. -/
def parentDisplay (s : String) : String :=
  let comps := (splitSlash s).filter (fun c => c ≠ "")
  let isAbs := startsWithSlash s
  match comps with
  | [] => "/"
  | [_] => if isAbs then "/" else ""
  | cs => (if isAbs then "/" else "") ++ joinSlash cs.dropLast

/-- Concatenation of the listing entries (`push_str` accumulation). -/
def joinAll : List String → String
  | [] => ""
  | s :: ss => s ++ joinAll ss

/-- Prefix of the directory-listing HTML wrapper, exactly as in the
source `format!` literal (including its 20-space indentation). -/
def dirHtmlPre : String :=
  "<html><head><style>\n" ++
  "                    body \x7b font-family: Arial, sans-serif; margin: 20px; padding: 0; \x7d\n" ++
  "                    h1 \x7b color: #333; \x7d\n" ++
  "                    ul \x7b list-style-type: none; padding: 0; \x7d\n" ++
  "                    li \x7b margin-bottom: 10px; \x7d\n" ++
  "                    a \x7b text-decoration: none; color: #007bff; font-size: 16px; \x7d\n" ++
  "                    a:hover \x7b text-decoration: underline; color: #0056b3; \x7d\n" ++
  "                    </style></head><body>\n" ++
  "                    <h1>Directory Listing</h1>\n" ++
  "                    <ul>"

/-- Suffix of the directory-listing HTML wrapper. -/
def dirHtmlPost : String := "</ul></body></html>"

/-- The resource string: `.` for an empty or `/` request path, the
request path itself otherwise. -/
def resourceOf (p : String) : String :=
  if p = "" ∨ p = "/" then "." else p

/-- The joined target path `server_root_path.join(&resource)`. -/
def targetOf (root : RPath) (p : String) : RPath :=
  RPath.join root (parsePath (resourceOf p))

/-- Shallow embedding of `HttpResponse::new`, following the source
control flow line by line.  Note two faithfully preserved quirks: the
target is canonicalized (I/O error on failure) before any existence
check, and in the directory branch the header is formatted while
`status` still holds its initial `NotFound` value. -/
def buildResponse (w : World) (root : RPath) (request : HttpRequest) :
    Except IoError HttpResponse :=
  let version : Version := Version.V1_1
  let status : ResponseStatus := ResponseStatus.NotFound
  let content_length : Nat := 0
  let accept_ranges : AcceptRanges := AcceptRanges.None
  let response_body : String := ""
  let resource : String := resourceOf request.resource.path
  let new_path : RPath := RPath.join root (parsePath resource)
  match canonicalize w root with
  | none => Except.error IoError.canonicalizeFailed
  | some canonRoot =>
    match canonicalize w new_path with
    | none => Except.error IoError.canonicalizeFailed
    | some canonResource =>
      let rootcwd_len := componentCount canonRoot
      let resource_len := componentCount canonResource
      if rootcwd_len > resource_len then
        let status := ResponseStatus.NotFound
        let response_body := forbiddenBody
        let content_length := strLen response_body
        Except.ok
          { version := version, status := status,
            content_length := content_length, accept_ranges := accept_ranges,
            response_body := response_body, current_path := request.resource.path }
      else
        match statNode w new_path with
        | FSNode.file content =>
          let content_length := content.length
          let status := ResponseStatus.OK
          let accept_ranges := AcceptRanges.Bytes
          let mime_type := (w.sniff content).getD ("application/octet-stream")
          let response_body :=
            headerString version status accept_ranges mime_type content_length ++
              String.mk (utf8DecodeAux content)
          Except.ok
            { version := version, status := status,
              content_length := content_length, accept_ranges := accept_ranges,
              response_body := response_body, current_path := request.resource.path }
        | FSNode.dir entries =>
          match childLinks root new_path entries with
          | Except.error e => Except.error e
          | Except.ok clinks =>
            let dir_list :=
              joinAll ((if resource ≠ "." then [goBackLink (parentDisplay resource)]
                        else []) ++ clinks)
            let response_body0 := dirHtmlPre ++ dir_list ++ dirHtmlPost
            let content_length := strLen response_body0
            let response_body :=
              headerString version status accept_ranges ("text/html") content_length ++
                response_body0
            let status := ResponseStatus.OK
            Except.ok
              { version := version, status := status,
                content_length := content_length, accept_ranges := accept_ranges,
                response_body := response_body, current_path := request.resource.path }
        | FSNode.other =>
          Except.ok
            { version := version, status := status,
              content_length := content_length, accept_ranges := accept_ranges,
              response_body := response_body, current_path := request.resource.path }
        | FSNode.missing =>
          let response_body := notFoundBody
          let content_length := strLen response_body
          Except.ok
            { version := version, status := status,
              content_length := content_length, accept_ranges := accept_ranges,
              response_body := response_body, current_path := request.resource.path }

/-- The spec's `ResolvedTarget` classification, read off the same
conditions the builder branches on. -/
inductive ResolvedTarget where
  | outsideRoot
  | fileAt (content : Bytes)
  | dirAt (entries : List String)
  | otherAt
  | missingT
deriving DecidableEq

/-- Classification of a request path, mirroring the builder's branch
conditions; `none` when a `canonicalize` call fails. -/
def classify (w : World) (root : RPath) (p : String) : Option ResolvedTarget :=
  match canonicalize w root, canonicalize w (targetOf root p) with
  | some cr, some ct =>
    if componentCount cr > componentCount ct then some ResolvedTarget.outsideRoot
    else
      match w.node ct with
      | FSNode.file c => some (ResolvedTarget.fileAt c)
      | FSNode.dir es => some (ResolvedTarget.dirAt es)
      | FSNode.other => some ResolvedTarget.otherAt
      | FSNode.missing => some ResolvedTarget.missingT
  | _, _ => none

/-- The response record the file branch constructs. -/
def fileResponse (w : World) (p : String) (content : Bytes) : HttpResponse :=
  { version := Version.V1_1, status := ResponseStatus.OK,
    content_length := content.length, accept_ranges := AcceptRanges.Bytes,
    response_body :=
      headerString Version.V1_1 ResponseStatus.OK AcceptRanges.Bytes
          ((w.sniff content).getD ("application/octet-stream")) content.length ++
        String.mk (utf8DecodeAux content),
    current_path := p }

/-- The listing page the directory branch generates: the go-back link
(when the resource is not `.`), then one link per immediate child, all
wrapped in the styled HTML page. -/
def listingHtml (p : String) (clinks : List String) : String :=
  dirHtmlPre ++
    joinAll ((if resourceOf p ≠ "." then [goBackLink (parentDisplay (resourceOf p))]
      else []) ++ clinks) ++ dirHtmlPost

/-- The response record the directory branch constructs from the already
generated listing entries; the serialized status text is the one of
`NotFound` because the source assigns `OK` only after formatting. -/
def dirResponse (p : String) (clinks : List String) : HttpResponse :=
  { version := Version.V1_1, status := ResponseStatus.OK,
    content_length := strLen (listingHtml p clinks),
    accept_ranges := AcceptRanges.None,
    response_body :=
      headerString Version.V1_1 ResponseStatus.NotFound AcceptRanges.None
          ("text/html") (strLen (listingHtml p clinks)) ++ listingHtml p clinks,
    current_path := p }


/-! Helper lemmas about the embedding. -/

theorem statNode_of_canon (w : World) (p : RPath) (c : List String)
    (h : canonicalize w p = some c) : statNode w p = w.node c := by
  unfold statNode
  rw [h]

theorem isPrefixOf_self_append (a b : List String) :
    List.isPrefixOf a (a ++ b) = true := by
  induction a with
  | nil => simp [List.isPrefixOf]
  | cons x xs ih => simp [List.isPrefixOf, ih]

theorem join_relative (a b : RPath) (h : b.absolute = false) :
    RPath.join a b = ⟨a.absolute, a.comps ++ b.comps⟩ := by
  unfold RPath.join
  rw [h]
  simp

theorem childLinks_ok (root : RPath) (rest : List String) (names : List String) :
    childLinks root ⟨root.absolute, root.comps ++ rest⟩ names =
      Except.ok (names.map (fun n => childLink (joinSlash (rest ++ [n])) n)) := by
  induction names with
  | nil => rfl
  | cons n ns ih =>
    simp only [childLinks, stripPrefixDisplay, List.append_assoc,
      isPrefixOf_self_append, List.drop_left, List.map_cons]
    rw [ih]
    simp


/-- The response record of the outside-root (403-body) branch. -/
def forbiddenResponse (p : String) : HttpResponse :=
  { version := Version.V1_1, status := ResponseStatus.NotFound,
    content_length := strLen forbiddenBody, accept_ranges := AcceptRanges.None,
    response_body := forbiddenBody, current_path := p }

/-- The response record of the 404 branch. -/
def notFoundResponse (p : String) : HttpResponse :=
  { version := Version.V1_1, status := ResponseStatus.NotFound,
    content_length := strLen notFoundBody, accept_ranges := AcceptRanges.None,
    response_body := notFoundBody, current_path := p }

/-- The response record when the target exists but is neither a file nor
a directory: all fields keep their initial values. -/
def emptyResponse (p : String) : HttpResponse :=
  { version := Version.V1_1, status := ResponseStatus.NotFound,
    content_length := 0, accept_ranges := AcceptRanges.None,
    response_body := "", current_path := p }

theorem buildResponse_eq_branch (w : World) (root : RPath) (req : HttpRequest)
    (cr ct : List String)
    (hr : canonicalize w root = some cr)
    (ht : canonicalize w (targetOf root req.resource.path) = some ct) :
    buildResponse w root req =
      if componentCount cr > componentCount ct then
        Except.ok (forbiddenResponse req.resource.path)
      else
        match w.node ct with
        | FSNode.file content => Except.ok (fileResponse w req.resource.path content)
        | FSNode.dir entries =>
          match childLinks root (targetOf root req.resource.path) entries with
          | Except.error e => Except.error e
          | Except.ok clinks => Except.ok (dirResponse req.resource.path clinks)
        | FSNode.other => Except.ok (emptyResponse req.resource.path)
        | FSNode.missing => Except.ok (notFoundResponse req.resource.path) := by
  have ht' : canonicalize w (RPath.join root (parsePath (resourceOf req.resource.path))) =
      some ct := ht
  have hs : statNode w (RPath.join root (parsePath (resourceOf req.resource.path))) =
      w.node ct := statNode_of_canon _ _ _ ht'
  simp only [buildResponse, targetOf, hr, ht', hs, fileResponse, dirResponse,
    listingHtml, forbiddenResponse, notFoundResponse, emptyResponse]

theorem buildResponse_root_canon_none (w : World) (root : RPath) (req : HttpRequest)
    (h : canonicalize w root = none) :
    buildResponse w root req = Except.error IoError.canonicalizeFailed := by
  simp only [buildResponse, h]

theorem buildResponse_target_canon_none (w : World) (root : RPath) (req : HttpRequest)
    (cr : List String) (hr : canonicalize w root = some cr)
    (h : canonicalize w (targetOf root req.resource.path) = none) :
    buildResponse w root req = Except.error IoError.canonicalizeFailed := by
  have h' : canonicalize w (RPath.join root (parsePath (resourceOf req.resource.path))) =
      none := h
  simp only [buildResponse, hr, h']

theorem buildResponse_ok_characterization (w : World) (root : RPath)
    (req : HttpRequest) (resp : HttpResponse)
    (h : buildResponse w root req = Except.ok resp) :
    resp.version = Version.V1_1 ∧ resp.current_path = req.resource.path ∧
    (resp = forbiddenResponse req.resource.path ∨
     resp = notFoundResponse req.resource.path ∨
     resp = emptyResponse req.resource.path ∨
     (∃ content, statNode w (targetOf root req.resource.path) = FSNode.file content ∧
        resp = fileResponse w req.resource.path content) ∨
     (∃ entries clinks,
        statNode w (targetOf root req.resource.path) = FSNode.dir entries ∧
        childLinks root (targetOf root req.resource.path) entries = Except.ok clinks ∧
        resp = dirResponse req.resource.path clinks)) := by
  rcases hcr : canonicalize w root with - | cr
  · rw [buildResponse_root_canon_none w root req hcr] at h
    exact absurd h (by simp)
  rcases hct : canonicalize w (targetOf root req.resource.path) with - | ct
  · rw [buildResponse_target_canon_none w root req cr hcr hct] at h
    exact absurd h (by simp)
  rw [buildResponse_eq_branch w root req cr ct hcr hct] at h
  by_cases hcnt : componentCount cr > componentCount ct
  · rw [if_pos hcnt] at h
    injection h with h2
    subst h2
    exact ⟨rfl, rfl, Or.inl rfl⟩
  · rw [if_neg hcnt] at h
    rcases hn : w.node ct with content | entries | - | -
    · simp only [hn] at h
      injection h with h2
      subst h2
      refine ⟨rfl, rfl, Or.inr (Or.inr (Or.inr (Or.inl ⟨content, ?_, rfl⟩)))⟩
      rw [statNode_of_canon _ _ _ hct, hn]
    · simp only [hn] at h
      rcases hcl : childLinks root (targetOf root req.resource.path) entries with e | clinks
      · rw [hcl] at h
        exact absurd h (by simp)
      · rw [hcl] at h
        injection h with h2
        subst h2
        refine ⟨rfl, rfl, Or.inr (Or.inr (Or.inr (Or.inr ⟨entries, clinks, ?_, hcl, rfl⟩)))⟩
        rw [statNode_of_canon _ _ _ hct, hn]
    · simp only [hn] at h
      injection h with h2
      subst h2
      exact ⟨rfl, rfl, Or.inr (Or.inr (Or.inl rfl))⟩
    · simp only [hn] at h
      injection h with h2
      subst h2
      exact ⟨rfl, rfl, Or.inr (Or.inl rfl)⟩


theorem joinSlash_append_last (xs : List String) (n : String) :
    joinSlash (xs ++ [n]) = (if xs = [] then "" else joinSlash xs ++ "/") ++ n := by
  induction xs with
  | nil => simp [joinSlash, String.empty_append]
  | cons x xs ih =>
    cases xs with
    | nil => simp [joinSlash, String.append_assoc]
    | cons y ys =>
      have ih' : joinSlash (y :: (ys ++ [n])) = joinSlash (y :: ys) ++ "/" ++ n := by
        simpa using ih
      simp only [List.cons_append, joinSlash, ih']
      simp [ih', String.append_assoc]

theorem childLink_self_inj (pref : String) (n m : String)
    (h : childLink (pref ++ n) n = childLink (pref ++ m) m) : n = m := by
  have hd := congrArg String.data h
  simp only [childLink, String.data_append, List.append_assoc] at hd
  have h2 := List.append_cancel_left hd
  have h3 := List.append_cancel_left h2
  have hlen : n.data.length = m.data.length := by
    have h4 := congrArg List.length h3
    simp only [List.length_append] at h4
    omega
  exact congrArg String.mk (List.append_inj h3 hlen).1

theorem linkOf_inj (rest : List String) (n m : String)
    (h : childLink (joinSlash (rest ++ [n])) n =
      childLink (joinSlash (rest ++ [m])) m) : n = m := by
  rw [joinSlash_append_last, joinSlash_append_last] at h
  exact childLink_self_inj _ _ _ h

theorem count_map_link (rest : List String) :
    ∀ l : List String, l.Nodup → ∀ n ∈ l,
      (l.map (fun k => childLink (joinSlash (rest ++ [k])) k)).count
        (childLink (joinSlash (rest ++ [n])) n) = 1 := by
  intro l
  induction l with
  | nil =>
    intro _ n hn
    exact absurd hn (List.not_mem_nil n)
  | cons x xs ih =>
    intro hnd n hn
    obtain ⟨hx, hxs⟩ := List.nodup_cons.mp hnd
    rcases List.mem_cons.mp hn with rfl | hn'
    · simp only [List.map_cons]
      rw [List.count_cons]
      have h0 : (xs.map (fun k => childLink (joinSlash (rest ++ [k])) k)).count
          (childLink (joinSlash (rest ++ [n])) n) = 0 := by
        rw [List.count_eq_zero]
        intro hmem
        obtain ⟨y, hy, hfy⟩ := List.mem_map.mp hmem
        exact hx (linkOf_inj rest y n hfy ▸ hy)
      rw [h0, beq_self_eq_true]
      simp
    · simp only [List.map_cons]
      rw [List.count_cons, ih hxs n hn']
      have hne : (childLink (joinSlash (rest ++ [x])) x ==
          childLink (joinSlash (rest ++ [n])) n) = false := by
        rw [beq_eq_false_iff_ne]
        intro he
        have := linkOf_inj rest x n he
        subst this
        exact hx hn'
      rw [hne]
      simp


/-! Concrete snapshots used as failing inputs and witnesses. -/

/-- Demonstration snapshot: server root `/srv` containing a text file, a
subdirectory with two files, a FIFO, and a non-UTF-8 binary file. -/
def demoNode : List String → FSNode := fun p =>
  match p with
  | [] => FSNode.dir (["srv"])
  | ["srv"] => FSNode.dir (["a.txt", "files", "fifo", "raw.bin"])
  | ["srv", "a.txt"] => FSNode.file ([104, 105])
  | ["srv", "files"] => FSNode.dir (["b.txt", "c.txt"])
  | ["srv", "files", "b.txt"] => FSNode.file ([98])
  | ["srv", "files", "c.txt"] => FSNode.file ([99])
  | ["srv", "fifo"] => FSNode.other
  | ["srv", "raw.bin"] => FSNode.file ([255])
  | _ => FSNode.missing

/-- Demonstration world; the sniffer recognizes nothing. -/
def demoWorld : World := ⟨demoNode, fun _ => none⟩

/-- The server root `/srv`. -/
def demoRoot : RPath := ⟨true, ["srv"]⟩

/-- First `n` characters of a string. -/
def strTake (s : String) (n : Nat) : String := String.mk (s.data.take n)

/-! Claim theorems. -/

/-- C1: code bug.  The source's own comment ("Handle case when the
resource doesn't exist (404 Not Found)") and the spec expect a
`NotFound` response with the 404 HTML body for a nonexistent request
path, but `new_path.canonicalize()?` runs before any existence or
containment check and fails on a nonexistent path, so the builder
propagates the canonicalization I/O error instead and the 404 branch is
unreachable on a consistent snapshot.  Failing input: root `/srv` and
request path `missing.txt` with no such entry. -/
theorem missing_path_returns_io_error :
    buildResponse demoWorld demoRoot ⟨⟨"missing.txt"⟩, Version.V1_1⟩ =
      Except.error IoError.canonicalizeFailed ∧
    demoWorld.node (["srv", "missing.txt"]) = FSNode.missing := ⟨rfl, rfl⟩

/-- C2: code bug.  For a request resolving to an existing directory the
response record's status field is `OK` and the serialized header carries
Content-Type `text/html` and accept-ranges `none` as claimed, but the
serialized status line reads `404 NOT FOUND`, not `200 OK`: the source
formats the header while `status` still holds its initial `NotFound`
value and assigns `OK` only afterwards.  Failing input: root `/srv`,
request path `files` naming an existing subdirectory. -/
theorem directory_status_line_says_404 :
    (buildResponse demoWorld demoRoot ⟨⟨"files"⟩, Version.V1_1⟩).map
        (fun r => (r.status, r.accept_ranges, strTake r.response_body 67)) =
      Except.ok (ResponseStatus.OK, AcceptRanges.None,
        "HTTP/1.1 404 NOT FOUND\naccept-ranges: none\nContent-Type: text/html\n") := rfl

/-- C9: the builder is embedded as a pure function of the request and
the file-system snapshot, so two invocations with the same request and
unchanged state return identical results — byte-identical serialized
output for every classification (the embedding fixes the directory
iteration order as the order carried by the snapshot). -/
theorem builder_deterministic (w : World) (root : RPath) (req : HttpRequest)
    (r₁ r₂ : Except IoError HttpResponse)
    (h₁ : buildResponse w root req = r₁) (h₂ : buildResponse w root req = r₂) :
    r₁ = r₂ := h₁.symm.trans h₂

theorem builder_deterministic_witness :
    Except.ok (fileResponse demoWorld ("a.txt") ([104, 105])) =
      buildResponse demoWorld demoRoot ⟨⟨"a.txt"⟩, Version.V1_1⟩ :=
  builder_deterministic demoWorld demoRoot ⟨⟨"a.txt"⟩, Version.V1_1⟩ _ _ (by rfl) (by rfl)

/-- C10: a target that exists but is neither a regular file nor a
directory passes the containment check and the `exists()` test but falls
through both inner branches, so the builder returns `Ok` with every
field still holding its initial value: status `NotFound`, empty response
body (no header block and no HTML), content length 0 and accept-ranges
`none`. -/
theorem other_node_empty_response (w : World) (root : RPath) (req : HttpRequest)
    (cr ct : List String)
    (hr : canonicalize w root = some cr)
    (ht : canonicalize w (targetOf root req.resource.path) = some ct)
    (hcnt : ¬ componentCount cr > componentCount ct)
    (ho : w.node ct = FSNode.other) :
    buildResponse w root req = Except.ok (emptyResponse req.resource.path) := by
  rw [buildResponse_eq_branch w root req cr ct hr ht, if_neg hcnt, ho]

theorem other_node_empty_response_witness :
    buildResponse demoWorld demoRoot ⟨⟨"fifo"⟩, Version.V1_1⟩ =
      Except.ok (emptyResponse ("fifo")) :=
  other_node_empty_response demoWorld demoRoot ⟨⟨"fifo"⟩, Version.V1_1⟩ (["srv"])
    (["srv", "fifo"]) rfl rfl (by decide) rfl


/-- C5: counterexample.  The claim says the request's HTTP version is
threaded through unchanged into the response for all possible input
versions, but the source hardcodes `let version: Version = Version::V1_1;`
and never reads the request's version: a request carrying `V2_0` still
yields a response whose version is `V1_1`. -/
theorem version_not_threaded :
    (buildResponse demoWorld demoRoot ⟨⟨"a.txt"⟩, Version.V2_0⟩).map
        (fun r => r.version) = Except.ok Version.V1_1 ∧
    Version.V1_1 ≠ Version.V2_0 := ⟨rfl, by decide⟩

/-- C5 (amended): the builder ignores the request's version entirely;
every successfully built response carries version `V1_1`, whatever
version the request record holds. -/
theorem version_always_v11 (w : World) (root : RPath) (req : HttpRequest)
    (resp : HttpResponse) (h : buildResponse w root req = Except.ok resp) :
    resp.version = Version.V1_1 :=
  (buildResponse_ok_characterization w root req resp h).1

theorem version_always_v11_witness :
    (fileResponse demoWorld ("a.txt") ([104, 105])).version = Version.V1_1 :=
  version_always_v11 demoWorld demoRoot ⟨⟨"a.txt"⟩, Version.V2_0⟩
    (fileResponse demoWorld ("a.txt") ([104, 105])) (by rfl)

/-- C3: counterexample.  The claim says the serialized output begins
with the `<version> <status>` header block for every classification, but
for a request canonicalizing outside the root (classification
`OutsideRoot`) the output is the bare 403 HTML: its first character is
`<`, while a header block's first character is the `H` of the version
display, for either version.  Input: root `/srv`, request path `..`. -/
theorem outside_root_body_lacks_header_block :
    classify demoWorld demoRoot ("..") = some ResolvedTarget.outsideRoot ∧
    (buildResponse demoWorld demoRoot ⟨⟨".."⟩, Version.V1_1⟩).map
        (fun r => (r.response_body, r.response_body.data.head?)) =
      Except.ok (forbiddenBody, some '<') ∧
    (Version.display Version.V1_1).data.head? = some 'H' ∧
    (Version.display Version.V2_0).data.head? = some 'H' :=
  ⟨rfl, rfl, rfl, rfl⟩

/-- C3 (amended): the header block
`<version> <status>\n<accept-ranges>\nContent-Type: <mime>\nContent-Length: <n>\r\n\r\n`
is emitted, followed by the body, only by the file branch (status text
`200 OK`, accept-ranges `bytes`) and the directory branch (status text
`404 NOT FOUND`, accept-ranges `none`, Content-Type `text/html`); the
outside-root, 404 and neither-file-nor-directory outcomes serialize the
bare body (403 HTML, 404 HTML, empty string) with no header block. -/
theorem header_block_only_for_file_and_directory (w : World) (root : RPath)
    (req : HttpRequest) (resp : HttpResponse)
    (h : buildResponse w root req = Except.ok resp) :
    (∃ mime n body, resp.response_body =
        headerString Version.V1_1 ResponseStatus.OK AcceptRanges.Bytes mime n ++ body ∧
        resp.content_length = n) ∨
    (∃ n body, resp.response_body =
        headerString Version.V1_1 ResponseStatus.NotFound AcceptRanges.None
          ("text/html") n ++ body ∧ resp.content_length = n) ∨
    resp.response_body = forbiddenBody ∨ resp.response_body = notFoundBody ∨
    resp.response_body = "" := by
  rcases buildResponse_ok_characterization w root req resp h with
    ⟨-, -, h403 | h404 | hempty | ⟨content, -, hfile⟩ | ⟨entries, clinks, -, -, hdir⟩⟩
  · subst h403
    exact Or.inr (Or.inr (Or.inl rfl))
  · subst h404
    exact Or.inr (Or.inr (Or.inr (Or.inl rfl)))
  · subst hempty
    exact Or.inr (Or.inr (Or.inr (Or.inr rfl)))
  · subst hfile
    exact Or.inl ⟨(w.sniff content).getD ("application/octet-stream"), content.length,
      String.mk (utf8DecodeAux content), rfl, rfl⟩
  · subst hdir
    refine Or.inr (Or.inl ⟨strLen (listingHtml req.resource.path clinks),
      listingHtml req.resource.path clinks, ?_, ?_⟩)
    · simp only [dirResponse]
    · simp only [dirResponse]

theorem header_block_only_for_file_and_directory_witness :
    (∃ mime n body, (fileResponse demoWorld ("a.txt") ([104, 105])).response_body =
        headerString Version.V1_1 ResponseStatus.OK AcceptRanges.Bytes mime n ++ body ∧
        (fileResponse demoWorld ("a.txt") ([104, 105])).content_length = n) ∨
    (∃ n body, (fileResponse demoWorld ("a.txt") ([104, 105])).response_body =
        headerString Version.V1_1 ResponseStatus.NotFound AcceptRanges.None
          ("text/html") n ++ body ∧
        (fileResponse demoWorld ("a.txt") ([104, 105])).content_length = n) ∨
    (fileResponse demoWorld ("a.txt") ([104, 105])).response_body = forbiddenBody ∨
    (fileResponse demoWorld ("a.txt") ([104, 105])).response_body = notFoundBody ∨
    (fileResponse demoWorld ("a.txt") ([104, 105])).response_body = "" :=
  header_block_only_for_file_and_directory demoWorld demoRoot
    ⟨⟨"a.txt"⟩, Version.V1_1⟩ (fileResponse demoWorld ("a.txt") ([104, 105])) (by rfl)

/-- C4: counterexample.  For the one-byte file `raw.bin` holding the
invalid UTF-8 byte 0xFF, `content_length` is 1 (the raw byte count), but
the content appended after the header block is the lossy decoding — the
single replacement character U+FFFD — whose byte length is 3, so
`content_length` does not equal the byte length of the appended content. -/
theorem content_length_mismatch_for_invalid_utf8 :
    (buildResponse demoWorld demoRoot ⟨⟨"raw.bin"⟩, Version.V1_1⟩).map
        (fun r => (r.content_length, r.response_body)) =
      Except.ok (1,
        headerString Version.V1_1 ResponseStatus.OK AcceptRanges.Bytes
            ("application/octet-stream") 1 ++ String.mk ([repChar])) ∧
    strLen (String.mk ([repChar])) = 3 ∧ (1 : Nat) ≠ 3 :=
  ⟨rfl, by decide, by decide⟩

/-- C4 (amended): `content_length` always equals the byte length of the
generated content before it is embedded into the output: the byte length
of the 403/404 HTML, 0 for the empty neither-file-nor-directory body,
the byte length of the listing HTML for directories (in all these cases
the appended content is that very string), and the file's raw byte count
for files — where the appended content is instead the lossy UTF-8
decoding of the bytes, whose byte length can differ when the file is not
valid UTF-8. -/
theorem content_length_raw_byte_count (w : World) (root : RPath)
    (req : HttpRequest) (resp : HttpResponse)
    (h : buildResponse w root req = Except.ok resp) :
    (resp.response_body = forbiddenBody ∧ resp.content_length = strLen forbiddenBody) ∨
    (resp.response_body = notFoundBody ∧ resp.content_length = strLen notFoundBody) ∨
    (resp.response_body = "" ∧ resp.content_length = 0) ∨
    (∃ content, statNode w (targetOf root req.resource.path) = FSNode.file content ∧
      resp.content_length = content.length ∧
      resp.response_body =
        headerString Version.V1_1 ResponseStatus.OK AcceptRanges.Bytes
            ((w.sniff content).getD ("application/octet-stream")) content.length ++
          String.mk (utf8DecodeAux content)) ∨
    (∃ body, resp.content_length = strLen body ∧
      resp.response_body =
        headerString Version.V1_1 ResponseStatus.NotFound AcceptRanges.None
          ("text/html") (strLen body) ++ body) := by
  rcases buildResponse_ok_characterization w root req resp h with
    ⟨-, -, h403 | h404 | hempty | ⟨content, hf, hfile⟩ | ⟨entries, clinks, -, -, hdir⟩⟩
  · subst h403
    exact Or.inl ⟨rfl, rfl⟩
  · subst h404
    exact Or.inr (Or.inl ⟨rfl, rfl⟩)
  · subst hempty
    exact Or.inr (Or.inr (Or.inl ⟨rfl, rfl⟩))
  · subst hfile
    exact Or.inr (Or.inr (Or.inr (Or.inl ⟨content, hf, rfl, rfl⟩)))
  · subst hdir
    refine Or.inr (Or.inr (Or.inr (Or.inr
      ⟨listingHtml req.resource.path clinks, ?_, ?_⟩)))
    · simp only [dirResponse]
    · simp only [dirResponse]

theorem content_length_raw_byte_count_witness :
    ((fileResponse demoWorld ("raw.bin") ([255])).response_body = forbiddenBody ∧
      (fileResponse demoWorld ("raw.bin") ([255])).content_length = strLen forbiddenBody) ∨
    ((fileResponse demoWorld ("raw.bin") ([255])).response_body = notFoundBody ∧
      (fileResponse demoWorld ("raw.bin") ([255])).content_length = strLen notFoundBody) ∨
    ((fileResponse demoWorld ("raw.bin") ([255])).response_body = "" ∧
      (fileResponse demoWorld ("raw.bin") ([255])).content_length = 0) ∨
    (∃ content,
      statNode demoWorld (targetOf demoRoot ("raw.bin")) = FSNode.file content ∧
      (fileResponse demoWorld ("raw.bin") ([255])).content_length = content.length ∧
      (fileResponse demoWorld ("raw.bin") ([255])).response_body =
        headerString Version.V1_1 ResponseStatus.OK AcceptRanges.Bytes
            ((demoWorld.sniff content).getD ("application/octet-stream")) content.length ++
          String.mk (utf8DecodeAux content)) ∨
    (∃ body, (fileResponse demoWorld ("raw.bin") ([255])).content_length = strLen body ∧
      (fileResponse demoWorld ("raw.bin") ([255])).response_body =
        headerString Version.V1_1 ResponseStatus.NotFound AcceptRanges.None
          ("text/html") (strLen body) ++ body) :=
  content_length_raw_byte_count demoWorld demoRoot ⟨⟨"raw.bin"⟩, Version.V1_1⟩
    (fileResponse demoWorld ("raw.bin") ([255])) (by rfl)


/-- Reduction of `classify` once both canonicalizations are known. -/
theorem classify_eq_branch (w : World) (root : RPath) (p : String)
    (cr ct : List String)
    (hr : canonicalize w root = some cr)
    (ht : canonicalize w (targetOf root p) = some ct) :
    classify w root p =
      if componentCount cr > componentCount ct then some ResolvedTarget.outsideRoot
      else
        match w.node ct with
        | FSNode.file c => some (ResolvedTarget.fileAt c)
        | FSNode.dir es => some (ResolvedTarget.dirAt es)
        | FSNode.other => some ResolvedTarget.otherAt
        | FSNode.missing => some ResolvedTarget.missingT := by
  simp only [classify, hr, ht]

/-- Snapshot for the containment counterexample: root `/a/b` while
`/a/secret.txt` is a sibling of the root, outside it. -/
def escNode : List String → FSNode := fun p =>
  match p with
  | [] => FSNode.dir (["a"])
  | ["a"] => FSNode.dir (["b", "secret.txt"])
  | ["a", "b"] => FSNode.dir (["c.txt"])
  | ["a", "b", "c.txt"] => FSNode.file ([99])
  | ["a", "secret.txt"] => FSNode.file ([115])
  | _ => FSNode.missing

/-- World for the containment counterexample. -/
def escWorld : World := ⟨escNode, fun _ => none⟩

/-- The server root `/a/b`. -/
def escRoot : RPath := ⟨true, ["a", "b"]⟩

/-- C6: counterexample.  `/a/secret.txt` lies strictly outside the
server root `/a/b` (the root's components are not a prefix of the
target's), but its canonical component count (3, `RootDir` included) is
not smaller than the root's (also 3), so the count-based containment
check passes and the builder serves the file with status `OK` — it does
not answer `NotFound` with the 403 body as the claim requires for every
path canonicalizing strictly outside the root.  Input: request path
`../secret.txt`. -/
theorem escape_with_equal_component_count_served :
    canonicalize escWorld escRoot = some (["a", "b"]) ∧
    canonicalize escWorld (targetOf escRoot ("../secret.txt")) =
      some (["a", "secret.txt"]) ∧
    List.isPrefixOf (["a", "b"]) (["a", "secret.txt"]) = false ∧
    (buildResponse escWorld escRoot ⟨⟨"../secret.txt"⟩, Version.V1_1⟩).map
        (fun r => (r.status, r.response_body == forbiddenBody)) =
      Except.ok (ResponseStatus.OK, false) := ⟨rfl, rfl, by decide, rfl⟩

/-- C6 (amended): the builder classifies `OutsideRoot` exactly when the
canonical target's component count is strictly smaller than the
canonical root's, and whenever that count check triggers it responds
`NotFound` with body exactly the 403-Forbidden HTML.  The count check is
not equivalent to genuine outside-root containment (see the
counterexample): targets outside the root with at least as many
components are served normally. -/
theorem outside_root_iff_fewer_components (w : World) (root : RPath)
    (req : HttpRequest) (cr ct : List String)
    (hr : canonicalize w root = some cr)
    (ht : canonicalize w (targetOf root req.resource.path) = some ct) :
    (classify w root req.resource.path = some ResolvedTarget.outsideRoot ↔
      componentCount ct < componentCount cr) ∧
    (componentCount ct < componentCount cr →
      buildResponse w root req = Except.ok (forbiddenResponse req.resource.path)) := by
  constructor
  · rw [classify_eq_branch w root req.resource.path cr ct hr ht]
    by_cases hc : componentCount cr > componentCount ct
    · rw [if_pos hc]
      exact ⟨fun _ => hc, fun _ => rfl⟩
    · rw [if_neg hc]
      constructor
      · intro hcl
        exfalso
        rcases hn : w.node ct with c | es | - | - <;> rw [hn] at hcl <;> simp at hcl
      · intro hlt
        exact absurd hlt hc
  · intro hlt
    rw [buildResponse_eq_branch w root req cr ct hr ht, if_pos hlt]

theorem outside_root_iff_fewer_components_witness :
    (classify demoWorld demoRoot ("..") = some ResolvedTarget.outsideRoot ↔
      componentCount ([] : List String) < componentCount (["srv"])) ∧
    (componentCount ([] : List String) < componentCount (["srv"]) →
      buildResponse demoWorld demoRoot ⟨⟨".."⟩, Version.V1_1⟩ =
        Except.ok (forbiddenResponse (".."))) :=
  outside_root_iff_fewer_components demoWorld demoRoot ⟨⟨".."⟩, Version.V1_1⟩
    (["srv"]) ([] : List String) rfl rfl

/-- C7: a request resolving to an existing regular file inside the root
yields status `OK`, accept-ranges `bytes`, `content_length` equal to the
file's exact byte count, and a Content-Type equal to the MIME type the
sniffer reports for the file's bytes, with fallback
`application/octet-stream` when sniffing yields nothing: the response is
exactly `fileResponse`, whose serialized header embeds those fields. -/
theorem file_response_correct (w : World) (root : RPath) (req : HttpRequest)
    (cr ct : List String) (content : Bytes)
    (hr : canonicalize w root = some cr)
    (ht : canonicalize w (targetOf root req.resource.path) = some ct)
    (hcnt : ¬ componentCount cr > componentCount ct)
    (hf : w.node ct = FSNode.file content) :
    buildResponse w root req = Except.ok (fileResponse w req.resource.path content) ∧
    (fileResponse w req.resource.path content).status = ResponseStatus.OK ∧
    (fileResponse w req.resource.path content).accept_ranges = AcceptRanges.Bytes ∧
    (fileResponse w req.resource.path content).content_length = content.length ∧
    (fileResponse w req.resource.path content).response_body =
      headerString Version.V1_1 ResponseStatus.OK AcceptRanges.Bytes
          ((w.sniff content).getD ("application/octet-stream")) content.length ++
        String.mk (utf8DecodeAux content) := by
  refine ⟨?_, rfl, rfl, rfl, rfl⟩
  rw [buildResponse_eq_branch w root req cr ct hr ht, if_neg hcnt, hf]

/-- The eight PNG signature bytes. -/
def pngMagic : Bytes := [137, 80, 78, 71, 13, 10, 26, 10]

/-- Snapshot with a PNG-signature file directly under the root `/`. -/
def pngNode : List String → FSNode := fun p =>
  match p with
  | [] => FSNode.dir (["logo.png"])
  | ["logo.png"] => FSNode.file pngMagic
  | _ => FSNode.missing

/-- World whose sniffer recognizes the PNG signature. -/
def pngWorld : World :=
  ⟨pngNode, fun bs => if bs.take 8 = pngMagic then some ("image/png") else none⟩

/-- The server root `/` of the PNG world. -/
def pngRoot : RPath := ⟨true, []⟩

theorem file_response_correct_witness :
    buildResponse pngWorld pngRoot ⟨⟨"logo.png"⟩, Version.V1_1⟩ =
      Except.ok (fileResponse pngWorld ("logo.png") pngMagic) ∧
    (fileResponse pngWorld ("logo.png") pngMagic).status = ResponseStatus.OK ∧
    (fileResponse pngWorld ("logo.png") pngMagic).accept_ranges = AcceptRanges.Bytes ∧
    (fileResponse pngWorld ("logo.png") pngMagic).content_length = pngMagic.length ∧
    (fileResponse pngWorld ("logo.png") pngMagic).response_body =
      headerString Version.V1_1 ResponseStatus.OK AcceptRanges.Bytes
          ((pngWorld.sniff pngMagic).getD ("application/octet-stream")) pngMagic.length ++
        String.mk (utf8DecodeAux pngMagic) :=
  file_response_correct pngWorld pngRoot ⟨⟨"logo.png"⟩, Version.V1_1⟩ ([] : List String)
    (["logo.png"]) pngMagic rfl rfl (by decide) rfl


/-- C8: for a directory request whose resource is relative (request
paths that are empty, `/`, or do not start with `/`) and whose entry
names are distinct, the serialized listing is built from exactly one
link per immediate child of the directory — each child link has href
`/` followed by the child's path relative to the server root (the
resource components followed by the child's name) and its link string
occurs exactly once among the child links — and the go-back link,
pointing at the parent of the requested (not canonical) path string,
is prepended exactly once precisely when the requested path is not the
root (`""`, `"/"`, or `"."`). -/
theorem directory_listing_links (w : World) (root : RPath) (req : HttpRequest)
    (cr ct : List String) (entries : List String)
    (habs : (parsePath (resourceOf req.resource.path)).absolute = false)
    (hr : canonicalize w root = some cr)
    (ht : canonicalize w (targetOf root req.resource.path) = some ct)
    (hcnt : ¬ componentCount cr > componentCount ct)
    (hd : w.node ct = FSNode.dir entries)
    (hnd : entries.Nodup) :
    buildResponse w root req =
      Except.ok (dirResponse req.resource.path
        (entries.map (fun n =>
          childLink
            (joinSlash ((parsePath (resourceOf req.resource.path)).comps ++ [n])) n))) ∧
    (∀ n ∈ entries,
      (entries.map (fun k =>
          childLink
            (joinSlash ((parsePath (resourceOf req.resource.path)).comps ++ [k])) k)).count
        (childLink
          (joinSlash ((parsePath (resourceOf req.resource.path)).comps ++ [n])) n) = 1) ∧
    (req.resource.path ≠ "" → req.resource.path ≠ "/" → req.resource.path ≠ "." →
      (if resourceOf req.resource.path ≠ "." then
          [goBackLink (parentDisplay (resourceOf req.resource.path))]
        else []) ++
          entries.map (fun n =>
            childLink
              (joinSlash ((parsePath (resourceOf req.resource.path)).comps ++ [n])) n) =
        goBackLink (parentDisplay req.resource.path) ::
          entries.map (fun n =>
            childLink
              (joinSlash ((parsePath (resourceOf req.resource.path)).comps ++ [n])) n)) ∧
    ((req.resource.path = "" ∨ req.resource.path = "/" ∨ req.resource.path = ".") →
      (if resourceOf req.resource.path ≠ "." then
          [goBackLink (parentDisplay (resourceOf req.resource.path))]
        else []) ++
          entries.map (fun n =>
            childLink
              (joinSlash ((parsePath (resourceOf req.resource.path)).comps ++ [n])) n) =
        entries.map (fun n =>
          childLink
            (joinSlash ((parsePath (resourceOf req.resource.path)).comps ++ [n])) n)) := by
  refine ⟨?_, ?_, ?_, ?_⟩
  · have htgt : targetOf root req.resource.path =
        ⟨root.absolute, root.comps ++ (parsePath (resourceOf req.resource.path)).comps⟩ := by
      unfold targetOf
      exact join_relative root _ habs
    have hcl : childLinks root (targetOf root req.resource.path) entries =
        Except.ok (entries.map (fun n =>
          childLink
            (joinSlash ((parsePath (resourceOf req.resource.path)).comps ++ [n])) n)) := by
      rw [htgt]
      exact childLinks_ok root _ entries
    rw [buildResponse_eq_branch w root req cr ct hr ht, if_neg hcnt, hd]
    simp only [hcl]
  · intro n hn
    exact count_map_link (parsePath (resourceOf req.resource.path)).comps entries hnd n hn
  · intro h1 h2 h3
    have hres : resourceOf req.resource.path = req.resource.path := by
      unfold resourceOf
      rw [if_neg]
      rintro (h | h) <;> [exact h1 h; exact h2 h]
    rw [hres, if_pos h3]
    rfl
  · intro h
    have hres : resourceOf req.resource.path = "." := by
      unfold resourceOf
      rcases h with h | h | h <;> rw [h] <;> simp
    rw [hres]
    simp

theorem directory_listing_links_witness :
    buildResponse demoWorld demoRoot ⟨⟨"files"⟩, Version.V1_1⟩ =
      Except.ok (dirResponse ("files")
        ((["b.txt", "c.txt"]).map (fun n =>
          childLink
            (joinSlash ((parsePath (resourceOf ("files"))).comps ++ [n])) n))) :=
  (directory_listing_links demoWorld demoRoot ⟨⟨"files"⟩, Version.V1_1⟩ (["srv"])
    (["srv", "files"]) (["b.txt", "c.txt"]) (by decide) rfl rfl (by decide) rfl
    (by decide)).1

end SimpleHttp
